import Mathlib

/-! Lean model of the coffee-roasting dashboard core: the roast-profile
generator, the session state machine of the control panel, the
live-temperature lookup, and the statistics block, together with proofs
of the specification's claims about them. -/

namespace Roasting

/-- Bean types offered by the sidebar selectbox in `app.py`. -/
inductive BeanType
  | Arabica
  | Robusta
  | Liberica
  | Excelsa
  | Blend
  deriving DecidableEq

/-- Target roast levels offered by the select slider in `app.py`. -/
inductive RoastLevel
  | Light
  | Medium
  | Dark
  | French
  | Italian
  deriving DecidableEq

/-- Event kinds of the timeline (spec §3, matching the event strings used
by `app.py`: "Profile Generated", "Roast Started", "First Crack",
"Second Crack", "Temperature Adjustment", "Other", "Roast Completed"). -/
inductive EventKind
  | ProfileGenerated
  | RoastStarted
  | FirstCrack
  | SecondCrack
  | TemperatureAdjustment
  | Other
  | RoastCompleted
  deriving DecidableEq

/-- Details payload of an event: free-form text, or — for the
`RoastCompleted` event of `app.py` line 104 — the elapsed duration in
minutes that the detail string formats. -/
inductive EventDetails
  | text (s : String)
  | duration (minutes : ℚ)
  deriving DecidableEq

/-- A timeline event.  Timestamps are rationals measured in seconds
(the code subtracts `datetime` values and converts with
`total_seconds()`). -/
structure RoastEvent where
  kind : EventKind
  timestamp : ℚ
  details : EventDetails
  deriving DecidableEq

/-- Error raised by the profile generator on out-of-range input
(spec §4.1 / §7), identifying the offending parameter and why. -/
inductive GenError
  | invalidParameter (param : String) (reason : String)
  deriving DecidableEq

/-- Error raised by session operations invoked in the wrong state
(spec §4.3 / §7). -/
inductive SessionError
  | InvalidTransition
  deriving DecidableEq

/-- A generated roast profile: the sample table (elapsed minutes,
temperature °C) plus the generation parameters kept for provenance
(spec §3). -/
structure RoastProfile where
  samples : List (ℚ × ℚ)
  charge_temperature : ℚ
  target_roast_level : RoastLevel
  bean_type : BeanType
  development_time_pct : ℚ
  deriving DecidableEq

/-- Modelled from the spec: `utils/profile_generator.py` is absent from the
source tree.  Spec §4.1 requires a target end temperature that increases
monotonically for darker levels; the model takes it as
`charge_temp + roastDelta level`, with strictly increasing deltas. -/
def roastDelta : RoastLevel → ℚ
  | RoastLevel.Light => 55
  | RoastLevel.Medium => 68
  | RoastLevel.Dark => 80
  | RoastLevel.French => 90
  | RoastLevel.Italian => 95

/-- Modelled from the spec: total roast duration in minutes, monotonically
increasing for darker levels (spec §4.1). -/
def roastDurationMin : RoastLevel → ℕ
  | RoastLevel.Light => 10
  | RoastLevel.Medium => 12
  | RoastLevel.Dark => 14
  | RoastLevel.French => 15
  | RoastLevel.Italian => 16

/-- Modelled from the spec: the instant (in minutes) at which the heating
ramp ends and the development phase begins — the development phase is the
final `development_time_pct` percent of the total duration (spec §4.1). -/
def rampTime (lvl : RoastLevel) (pct : ℚ) : ℚ :=
  (roastDurationMin lvl : ℚ) * (100 - pct) / 100

/-- Modelled from the spec: temperature at sample step `i` (steps are half
minutes, spec §3): a linear heating ramp from `charge` up by `delta`
degrees over `[0, rampT]`, then held at the peak for the development
phase (spec §4.1: curve from charge to end temperature, development phase
held at or near peak). -/
def tempAt (charge delta rampT : ℚ) (i : ℕ) : ℚ :=
  charge + delta * (min ((i : ℚ) / 2) rampT) / rampT

/-- Modelled from the spec: the sample table, one sample every 0.5 minute
from 0 to the total duration (spec §3: fixed resolution of 0.5 minute). -/
def mkSamples (lvl : RoastLevel) (charge pct : ℚ) : List (ℚ × ℚ) :=
  (List.range (2 * roastDurationMin lvl + 1)).map
    (fun (i : ℕ) =>
      ((i : ℚ) / 2, tempAt charge (roastDelta lvl) (rampTime lvl pct) i))

/-- Modelled from the spec: `utils/profile_generator.py` is absent from the
source tree; spec §4.1 gives the contract of
`generate_roast_profile(bean_type, roast_level, charge_temp,
development_time_pct)` — validate `charge_temp` against the plausible
roasting range 150–250 °C and `development_time_pct` against (0, 100),
failing with `InvalidParameter` naming the offending parameter, and
otherwise deterministically synthesize the sample table. -/
def generate_roast_profile (bean : BeanType) (lvl : RoastLevel)
    (charge : ℚ) (pct : ℚ) : Except GenError RoastProfile :=
  if charge < 150 ∨ 250 < charge then
    Except.error (GenError.invalidParameter "charge_temp"
      "must be between 150 and 250 degrees C")
  else if pct ≤ 0 ∨ 100 ≤ pct then
    Except.error (GenError.invalidParameter "development_time_pct"
      "must be strictly between 0 and 100 percent")
  else
    Except.ok
      { samples := mkSamples lvl charge pct
        charge_temperature := charge
        target_roast_level := lvl
        bean_type := bean
        development_time_pct := pct }

/-- Derived metadata (spec §3): the elapsed time of the last sample. -/
def RoastProfile.totalDuration (p : RoastProfile) : ℚ :=
  (p.samples.getD (p.samples.length - 1) (0, 0)).1

/-- Derived metadata (spec §3): the temperature of the last sample. -/
def RoastProfile.endTemperature (p : RoastProfile) : ℚ :=
  (p.samples.getD (p.samples.length - 1) (0, 0)).2

/-- The row index used by the live-temperature lookup of `app.py`
lines 112–114: `min(int(current_time * 2), len(profile) - 1)`.
For the nonnegative elapsed times of that code path, Python's `int`
truncation is the floor. -/
def currentTempIdx (p : RoastProfile) (elapsed : ℚ) : ℕ :=
  min (Int.toNat ⌊elapsed * 2⌋) (p.samples.length - 1)

/-- The simulated live temperature read by `app.py` lines 112–114:
the `Temperature` column of the row at `currentTempIdx`. -/
def currentTemp (p : RoastProfile) (elapsed : ℚ) : ℚ :=
  (p.samples.getD (currentTempIdx p elapsed) (0, 0)).2

/-- Elapsed-minutes entry of the sample at index `i` (0 when out of
range). -/
def sampleElapsed (p : RoastProfile) (i : ℕ) : ℚ :=
  (p.samples.getD i (0, 0)).1

/-- Temperature entry of the sample at index `i` (0 when out of range). -/
def sampleTemp (p : RoastProfile) (i : ℕ) : ℚ :=
  (p.samples.getD i (0, 0)).2

/-- Session lifecycle states (spec §3). -/
inductive SessionState
  | Idle
  | InProgress
  | Completed
  deriving DecidableEq

/-- Modelled from the spec: the `RoastSession` coordinator of spec §3/§4.3
is absent from the source tree; `app.py` keeps the same data in
`st.session_state` (`roast_in_progress`, `roast_profile`, `start_time`)
plus the `EventHandler`'s event list. -/
structure RoastSession where
  state : SessionState
  profile : Option RoastProfile
  timeline : List RoastEvent
  start_instant : Option ℚ
  deriving DecidableEq

/-- Modelled from the spec: `start()` of spec §4.3.  The guard matches the
Start Roast button of `app.py` line 88, which is disabled when a roast is
in progress or no profile exists; the spec turns that guard into an
`InvalidTransition` failure.  On success it records the start instant,
moves to `InProgress` and appends a `RoastStarted` event (`app.py`
lines 89–91). -/
def RoastSession.start (s : RoastSession) (now : ℚ) :
    Except SessionError RoastSession :=
  match s.state, s.profile with
  | SessionState.Idle, some _ =>
      Except.ok
        { s with
          state := SessionState.InProgress
          start_instant := some now
          timeline := s.timeline ++
            [{ kind := EventKind.RoastStarted, timestamp := now,
               details := EventDetails.text "Roast Started" }] }
  | _, _ => Except.error SessionError.InvalidTransition

/-- Modelled from the spec: `finish()` of spec §4.3.  The guard matches the
End Roast button of `app.py` line 101, disabled unless a roast is in
progress; on success it leaves the in-progress state and appends a
`RoastCompleted` event whose details capture the elapsed duration in
minutes, `(now - start_time) / 60` with timestamps in seconds (`app.py`
lines 102–104). -/
def RoastSession.finish (s : RoastSession) (now : ℚ) :
    Except SessionError RoastSession :=
  match s.state with
  | SessionState.InProgress =>
      Except.ok
        { s with
          state := SessionState.Completed
          timeline := s.timeline ++
            [{ kind := EventKind.RoastCompleted, timestamp := now,
               details := EventDetails.duration
                 ((now - s.start_instant.getD 0) / 60) }] }
  | _ => Except.error SessionError.InvalidTransition

/-- Time to first crack, from `app.py` lines 153–160: `"N/A"` (here
`none`) unless some event has kind `FirstCrack`, otherwise the offset in
minutes from the session start to the timestamp of the first such event. -/
def timeToFirstCrack (events : List RoastEvent) (startTime : ℚ) : Option ℚ :=
  match events.find? (fun e => decide (e.kind = EventKind.FirstCrack)) with
  | none => none
  | some e => some ((e.timestamp - startTime) / 60)

/-- Peak of the `Temperature` column of a recorded trace, as computed by
`roast_data['Temperature'].max()` in `app.py` line 152 (0 for an empty
trace, which the caller rules out). -/
def peakTemp : List (ℚ × ℚ) → ℚ
  | [] => 0
  | q :: rest => rest.foldl (fun m r => max m r.2) q.2

/-- The embedded statistics record of the Roast Statistics block. -/
structure RoastStats where
  latest : ℚ
  peak : ℚ
  ttfc : Option ℚ
  deriving DecidableEq

/-- The Roast Statistics block of `app.py` lines 150–165: nothing is shown
while the recorded trace `roast_data` is empty; otherwise the latest
temperature is the last row's, the peak is the column maximum, and time
to first crack is looked up in the event log. -/
def roastStatistics (trace : List (ℚ × ℚ)) (events : List RoastEvent)
    (startTime : ℚ) : Option RoastStats :=
  match trace with
  | [] => none
  | q :: rest =>
      some
        { latest := ((q :: rest).getLastD (0, 0)).2
          peak := peakTemp (q :: rest)
          ttfc := timeToFirstCrack events startTime }

/-! Helper lemmas about the generator. -/

theorem roastDurationMin_pos (lvl : RoastLevel) : 0 < roastDurationMin lvl := by
  cases lvl <;> simp [roastDurationMin]

theorem roastDelta_nonneg (lvl : RoastLevel) : 0 ≤ roastDelta lvl := by
  cases lvl <;> norm_num [roastDelta]

theorem rampTime_pos (lvl : RoastLevel) {pct : ℚ} (h : pct < 100) :
    0 < rampTime lvl pct := by
  have hD : (0 : ℚ) < (roastDurationMin lvl : ℚ) := by
    exact_mod_cast roastDurationMin_pos lvl
  unfold rampTime
  exact div_pos (mul_pos hD (by linarith)) (by norm_num)

theorem rampTime_le_duration (lvl : RoastLevel) {pct : ℚ} (h0 : 0 < pct) :
    rampTime lvl pct ≤ (roastDurationMin lvl : ℚ) := by
  have hD : (0 : ℚ) ≤ (roastDurationMin lvl : ℚ) := by positivity
  unfold rampTime
  rw [div_le_iff₀ (by norm_num : (0 : ℚ) < 100)]
  nlinarith

theorem tempAt_mono (charge delta rampT : ℚ) (hd : 0 ≤ delta) (hr : 0 < rampT)
    {i j : ℕ} (hij : i ≤ j) :
    tempAt charge delta rampT i ≤ tempAt charge delta rampT j := by
  unfold tempAt
  have hmin : min ((i : ℚ) / 2) rampT ≤ min ((j : ℚ) / 2) rampT := by
    refine min_le_min ?_ le_rfl
    have hij' : (i : ℚ) ≤ (j : ℚ) := by exact_mod_cast hij
    linarith
  have hmul := mul_le_mul_of_nonneg_left hmin hd
  have hdiv := (div_le_div_iff_of_pos_right hr).mpr hmul
  linarith

theorem tempAt_last (lvl : RoastLevel) (charge : ℚ) {pct : ℚ}
    (h3 : 0 < pct) (h4 : pct < 100) :
    tempAt charge (roastDelta lvl) (rampTime lvl pct) (2 * roastDurationMin lvl) =
      charge + roastDelta lvl := by
  have hr := rampTime_pos lvl h4
  have hle := rampTime_le_duration lvl h3
  unfold tempAt
  have h2 : ((2 * roastDurationMin lvl : ℕ) : ℚ) / 2 = (roastDurationMin lvl : ℚ) := by
    push_cast
    ring
  rw [h2, min_eq_right hle, mul_div_cancel_right₀ _ hr.ne']

theorem length_mkSamples (lvl : RoastLevel) (charge pct : ℚ) :
    (mkSamples lvl charge pct).length = 2 * roastDurationMin lvl + 1 := by
  simp [mkSamples]

theorem mkSamples_ne_nil (lvl : RoastLevel) (charge pct : ℚ) :
    mkSamples lvl charge pct ≠ [] :=
  List.length_pos.mp (by simp [length_mkSamples])

theorem getD_mkSamples (lvl : RoastLevel) (charge pct : ℚ) {i : ℕ}
    (h : i < 2 * roastDurationMin lvl + 1) :
    (mkSamples lvl charge pct).getD i (0, 0) =
      ((i : ℚ) / 2, tempAt charge (roastDelta lvl) (rampTime lvl pct) i) := by
  rw [List.getD_eq_getElem _ _ (by simpa [length_mkSamples] using h)]
  simp [mkSamples]

theorem generate_ok (bean : BeanType) (lvl : RoastLevel) {charge pct : ℚ}
    (h1 : 150 ≤ charge) (h2 : charge ≤ 250) (h3 : 0 < pct) (h4 : pct < 100) :
    generate_roast_profile bean lvl charge pct =
      Except.ok
        { samples := mkSamples lvl charge pct
          charge_temperature := charge
          target_roast_level := lvl
          bean_type := bean
          development_time_pct := pct } := by
  unfold generate_roast_profile
  rw [if_neg (by push_neg; exact ⟨by linarith, by linarith⟩),
    if_neg (by push_neg; exact ⟨by linarith, by linarith⟩)]

/-! Claims C3, C7, C9. -/

/-- Claim C3: profile generation is deterministic — two calls of
`generate_roast_profile` with identical inputs (bean type, roast level,
charge temperature, development-time percentage) yield `RoastProfile`s
with identical samples. -/
theorem generate_deterministic (bean : BeanType) (lvl : RoastLevel)
    (charge pct : ℚ) (p q : RoastProfile)
    (hp : generate_roast_profile bean lvl charge pct = Except.ok p)
    (hq : generate_roast_profile bean lvl charge pct = Except.ok q) :
    p.samples = q.samples := by
  rw [hp] at hq
  cases hq
  rfl

theorem generate_deterministic_witness :
    ∃ p q : RoastProfile,
      generate_roast_profile BeanType.Arabica RoastLevel.Medium 190 20 =
        Except.ok p ∧
      generate_roast_profile BeanType.Arabica RoastLevel.Medium 190 20 =
        Except.ok q ∧
      p.samples = q.samples :=
  ⟨_, _, generate_ok _ _ (by norm_num) (by norm_num) (by norm_num) (by norm_num),
    generate_ok _ _ (by norm_num) (by norm_num) (by norm_num) (by norm_num),
    generate_deterministic _ _ _ _ _ _
      (generate_ok _ _ (by norm_num) (by norm_num) (by norm_num) (by norm_num))
      (generate_ok _ _ (by norm_num) (by norm_num) (by norm_num) (by norm_num))⟩

/-- Claim C7: generation fails with an `InvalidParameter` error naming the
offending parameter whenever `charge_temp` is outside 150–250 °C or
`development_time_pct` is outside (0, 100), and on in-range inputs it
succeeds keeping the inputs unclamped in the resulting profile. -/
theorem generate_invalid_parameter (bean : BeanType) (lvl : RoastLevel)
    (charge pct : ℚ) :
    ((charge < 150 ∨ 250 < charge) →
      generate_roast_profile bean lvl charge pct =
        Except.error (GenError.invalidParameter "charge_temp"
          "must be between 150 and 250 degrees C")) ∧
    (150 ≤ charge → charge ≤ 250 → (pct ≤ 0 ∨ 100 ≤ pct) →
      generate_roast_profile bean lvl charge pct =
        Except.error (GenError.invalidParameter "development_time_pct"
          "must be strictly between 0 and 100 percent")) ∧
    (150 ≤ charge → charge ≤ 250 → 0 < pct → pct < 100 →
      ∃ p, generate_roast_profile bean lvl charge pct = Except.ok p ∧
        p.charge_temperature = charge ∧ p.development_time_pct = pct ∧
        p.target_roast_level = lvl ∧ p.bean_type = bean) := by
  refine ⟨?_, ?_, ?_⟩
  · intro h
    unfold generate_roast_profile
    rw [if_pos h]
  · intro hc1 hc2 hd
    unfold generate_roast_profile
    rw [if_neg (by push_neg; exact ⟨by linarith, by linarith⟩), if_pos hd]
  · intro hc1 hc2 hd1 hd2
    exact ⟨_, generate_ok bean lvl hc1 hc2 hd1 hd2, rfl, rfl, rfl, rfl⟩

theorem generate_invalid_parameter_witness :
    generate_roast_profile BeanType.Arabica RoastLevel.Medium 300 20 =
      Except.error (GenError.invalidParameter "charge_temp"
        "must be between 150 and 250 degrees C") ∧
    generate_roast_profile BeanType.Arabica RoastLevel.Medium 190 120 =
      Except.error (GenError.invalidParameter "development_time_pct"
        "must be strictly between 0 and 100 percent") ∧
    ∃ p, generate_roast_profile BeanType.Arabica RoastLevel.Medium 190 20 =
        Except.ok p ∧
      p.charge_temperature = 190 ∧ p.development_time_pct = 20 ∧
      p.target_roast_level = RoastLevel.Medium ∧ p.bean_type = BeanType.Arabica :=
  ⟨(generate_invalid_parameter BeanType.Arabica RoastLevel.Medium 300 20).1
      (by norm_num),
    (generate_invalid_parameter BeanType.Arabica RoastLevel.Medium 190 120).2.1
      (by norm_num) (by norm_num) (by norm_num),
    (generate_invalid_parameter BeanType.Arabica RoastLevel.Medium 190 20).2.2
      (by norm_num) (by norm_num) (by norm_num) (by norm_num)⟩

/-- A small concrete profile used by witnesses. -/
def witnessProfile : RoastProfile :=
  { samples := [(0, 190)]
    charge_temperature := 190
    target_roast_level := RoastLevel.Medium
    bean_type := BeanType.Arabica
    development_time_pct := 20 }

/-- Claim C9: for every non-empty profile and nonnegative elapsed time, the
lookup index `min(int(elapsed * 2), len(samples) - 1)` of the
live-temperature read is a valid position in the sample table, so the
read never goes out of bounds. -/
theorem current_temp_index_safe (p : RoastProfile) (elapsed : ℚ)
    (hx : 0 ≤ elapsed) (hne : p.samples ≠ []) :
    currentTempIdx p elapsed < p.samples.length := by
  have hlen : 0 < p.samples.length := List.length_pos.mpr hne
  unfold currentTempIdx
  calc min (Int.toNat ⌊elapsed * 2⌋) (p.samples.length - 1)
      ≤ p.samples.length - 1 := min_le_right _ _
    _ < p.samples.length := Nat.sub_lt hlen (by norm_num)

theorem current_temp_index_safe_witness :
    (0 : ℚ) ≤ 8 ∧ witnessProfile.samples ≠ [] ∧
    currentTempIdx witnessProfile 8 < witnessProfile.samples.length :=
  ⟨by norm_num, by decide,
    current_temp_index_safe witnessProfile 8 (by norm_num) (by decide)⟩

/-! Claims C2 and C8: the session state machine. -/

/-- Claim C2: `start()` fails with `InvalidTransition` when no profile has
been set or when the session is already started; in `Idle` with a profile
present it succeeds, sets `start_instant` to the current time, moves the
state to `InProgress`, and appends a `RoastStarted` event. -/
theorem start_transitions (s : RoastSession) (now : ℚ) :
    (s.profile = none →
      s.start now = Except.error SessionError.InvalidTransition) ∧
    (s.state = SessionState.InProgress →
      s.start now = Except.error SessionError.InvalidTransition) ∧
    (∀ p, s.state = SessionState.Idle → s.profile = some p →
      s.start now = Except.ok
        { s with
          state := SessionState.InProgress
          start_instant := some now
          timeline := s.timeline ++
            [{ kind := EventKind.RoastStarted, timestamp := now,
               details := EventDetails.text "Roast Started" }] }) := by
  refine ⟨?_, ?_, ?_⟩
  · intro h
    unfold RoastSession.start
    rw [h]
    cases hst : s.state <;> rfl
  · intro h
    unfold RoastSession.start
    rw [h]
  · intro p hst hpr
    unfold RoastSession.start
    rw [hst, hpr]

/-- A concrete idle session with a profile, used by witnesses. -/
def idleSession : RoastSession :=
  { state := SessionState.Idle
    profile := some witnessProfile
    timeline := []
    start_instant := none }

/-- A concrete idle session without a profile, used by witnesses. -/
def emptySession : RoastSession :=
  { state := SessionState.Idle
    profile := none
    timeline := []
    start_instant := none }

/-- A concrete in-progress session, used by witnesses. -/
def runningSession : RoastSession :=
  { state := SessionState.InProgress
    profile := some witnessProfile
    timeline := [{ kind := EventKind.RoastStarted, timestamp := 5,
                   details := EventDetails.text "Roast Started" }]
    start_instant := some 5 }

theorem start_transitions_witness :
    emptySession.start 0 = Except.error SessionError.InvalidTransition ∧
    runningSession.start 9 = Except.error SessionError.InvalidTransition ∧
    idleSession.start 5 = Except.ok
      { idleSession with
        state := SessionState.InProgress
        start_instant := some 5
        timeline := idleSession.timeline ++
          [{ kind := EventKind.RoastStarted, timestamp := 5,
             details := EventDetails.text "Roast Started" }] } :=
  ⟨(start_transitions emptySession 0).1 rfl,
    (start_transitions runningSession 9).2.1 rfl,
    (start_transitions idleSession 5).2.2 witnessProfile rfl rfl⟩

/-- Claim C8: `finish()` is allowed only while the session is
`InProgress`: it moves the state to `Completed` and appends a
`RoastCompleted` event whose details capture the elapsed duration in
minutes, `(now - start_instant) / 60`; in any other state it fails with
`InvalidTransition`. -/
theorem finish_transitions (s : RoastSession) (now t0 : ℚ) :
    (s.state ≠ SessionState.InProgress →
      s.finish now = Except.error SessionError.InvalidTransition) ∧
    (s.state = SessionState.InProgress → s.start_instant = some t0 →
      s.finish now = Except.ok
        { s with
          state := SessionState.Completed
          timeline := s.timeline ++
            [{ kind := EventKind.RoastCompleted, timestamp := now,
               details := EventDetails.duration ((now - t0) / 60) }] }) := by
  constructor
  · intro h
    unfold RoastSession.finish
    cases hst : s.state with
    | Idle => rfl
    | InProgress => exact absurd hst h
    | Completed => rfl
  · intro hst hsi
    unfold RoastSession.finish
    rw [hst, hsi]
    rfl

theorem finish_transitions_witness :
    idleSession.finish 9 = Except.error SessionError.InvalidTransition ∧
    runningSession.finish 9 = Except.ok
      { runningSession with
        state := SessionState.Completed
        timeline := runningSession.timeline ++
          [{ kind := EventKind.RoastCompleted, timestamp := 9,
             details := EventDetails.duration ((9 - 5) / 60) }] } :=
  ⟨(finish_transitions idleSession 9 0).1 (by decide),
    (finish_transitions runningSession 9 5).2 rfl rfl⟩

/-! Claims C4 and C10: the statistics block. -/

/-- Claim C4: `time_to_first_crack` is the "not yet observed" sentinel
(`none`, displayed as "N/A") whenever no `FirstCrack` event exists, and
once one exists it is the elapsed minutes between the session start and
the timestamp of the first `FirstCrack` event. -/
theorem time_to_first_crack_spec (events : List RoastEvent) (startTime : ℚ) :
    ((∀ e ∈ events, e.kind ≠ EventKind.FirstCrack) →
      timeToFirstCrack events startTime = none) ∧
    (∀ (pre : List RoastEvent) (e : RoastEvent) (post : List RoastEvent),
      events = pre ++ e :: post → e.kind = EventKind.FirstCrack →
      (∀ e2 ∈ pre, e2.kind ≠ EventKind.FirstCrack) →
      timeToFirstCrack events startTime =
        some ((e.timestamp - startTime) / 60)) := by
  constructor
  · intro h
    have hnone :
        events.find? (fun e => decide (e.kind = EventKind.FirstCrack)) = none := by
      rw [List.find?_eq_none]
      intro e he
      simpa using h e he
    unfold timeToFirstCrack
    rw [hnone]
  · intro pre e post hsplit he hpre
    subst hsplit
    have hnone :
        pre.find? (fun e => decide (e.kind = EventKind.FirstCrack)) = none := by
      rw [List.find?_eq_none]
      intro e2 he2
      simpa using hpre e2 he2
    have hcons :
        (e :: post).find? (fun e => decide (e.kind = EventKind.FirstCrack)) =
          some e :=
      List.find?_cons_of_pos _ (by simp [he])
    unfold timeToFirstCrack
    rw [List.find?_append, hnone, Option.none_or, hcons]

/-- A concrete first-crack event at 480 seconds, used by witnesses. -/
def firstCrackEvent : RoastEvent :=
  { kind := EventKind.FirstCrack
    timestamp := 480
    details := EventDetails.text "" }

/-- A concrete roast-started event at 0 seconds, used by witnesses. -/
def startedEvent : RoastEvent :=
  { kind := EventKind.RoastStarted
    timestamp := 0
    details := EventDetails.text "Roast Started" }

theorem time_to_first_crack_witness :
    timeToFirstCrack [startedEvent] 0 = none ∧
    timeToFirstCrack [startedEvent, firstCrackEvent] 0 =
      some ((firstCrackEvent.timestamp - 0) / 60) :=
  ⟨(time_to_first_crack_spec [startedEvent] 0).1 (by decide),
    (time_to_first_crack_spec [startedEvent, firstCrackEvent] 0).2
      [startedEvent] firstCrackEvent [] rfl rfl (by decide)⟩

theorem le_foldl_max (l : List (ℚ × ℚ)) (a : ℚ) :
    a ≤ l.foldl (fun m r => max m r.2) a := by
  induction l generalizing a with
  | nil => exact le_refl a
  | cons q rest ih =>
    simp only [List.foldl_cons]
    exact le_trans (le_max_left a q.2) (ih (max a q.2))

theorem mem_le_foldl_max (l : List (ℚ × ℚ)) :
    ∀ (a : ℚ) (q : ℚ × ℚ), q ∈ l →
      q.2 ≤ l.foldl (fun m r => max m r.2) a := by
  induction l with
  | nil =>
    intro a q hq
    cases hq
  | cons r rest ih =>
    intro a q hq
    simp only [List.foldl_cons]
    rcases List.mem_cons.mp hq with h | h
    · subst h
      exact le_trans (le_max_right a q.2) (le_foldl_max rest (max a q.2))
    · exact ih (max a r.2) q h

theorem foldl_max_eq_or (l : List (ℚ × ℚ)) :
    ∀ a : ℚ, l.foldl (fun m r => max m r.2) a = a ∨
      ∃ q ∈ l, l.foldl (fun m r => max m r.2) a = q.2 := by
  induction l with
  | nil =>
    intro a
    exact Or.inl rfl
  | cons r rest ih =>
    intro a
    simp only [List.foldl_cons]
    rcases ih (max a r.2) with h | ⟨q, hq, h⟩
    · rcases max_choice a r.2 with hm | hm
      · exact Or.inl (by rw [h, hm])
      · exact Or.inr ⟨r, List.mem_cons_self r rest, by rw [h, hm]⟩
    · exact Or.inr ⟨q, List.mem_cons_of_mem r hq, h⟩

/-- Claim C10: the statistics block produces nothing while the recorded
trace is empty — in particular time-to-first-crack is not reported even
if a `FirstCrack` event already exists — and once the trace is non-empty
it reports the last recorded temperature, a peak equal to the maximum
temperature over the trace, and the time to first crack of the event
log. -/
theorem statistics_gated_by_trace (trace : List (ℚ × ℚ))
    (events : List RoastEvent) (startTime : ℚ) :
    roastStatistics [] events startTime = none ∧
    (trace ≠ [] →
      ∃ s, roastStatistics trace events startTime = some s ∧
        s.ttfc = timeToFirstCrack events startTime ∧
        s.latest = (trace.getLastD (0, 0)).2 ∧
        (∀ q ∈ trace, q.2 ≤ s.peak) ∧
        ∃ q ∈ trace, s.peak = q.2) := by
  constructor
  · rfl
  · intro hne
    cases trace with
    | nil => exact absurd rfl hne
    | cons q rest =>
      refine ⟨_, rfl, rfl, rfl, ?_, ?_⟩
      · intro r hr
        rcases List.mem_cons.mp hr with h | h
        · subst h
          exact le_foldl_max rest r.2
        · exact mem_le_foldl_max rest q.2 r h
      · rcases foldl_max_eq_or rest q.2 with h | ⟨r, hr, h⟩
        · exact ⟨q, List.mem_cons_self q rest, h⟩
        · exact ⟨r, List.mem_cons_of_mem q hr, h⟩

theorem statistics_gated_witness :
    roastStatistics [] [firstCrackEvent] 0 = none ∧
    ∃ s, roastStatistics [((0 : ℚ), (190 : ℚ)), (1, 200)] [] 0 = some s ∧
      s.ttfc = timeToFirstCrack [] 0 ∧
      s.latest = (([((0 : ℚ), (190 : ℚ)), (1, 200)]).getLastD (0, 0)).2 ∧
      (∀ q ∈ [((0 : ℚ), (190 : ℚ)), (1, 200)], q.2 ≤ s.peak) ∧
      ∃ q ∈ [((0 : ℚ), (190 : ℚ)), (1, 200)], s.peak = q.2 :=
  ⟨(statistics_gated_by_trace [] [firstCrackEvent] 0).1,
    (statistics_gated_by_trace [((0 : ℚ), (190 : ℚ)), (1, 200)] [] 0).2
      (by decide)⟩

/-! Claim C5: shape invariants of generated profiles. -/

/-- Claim C5: every generated profile has a non-empty sample table whose
elapsed-minutes values are strictly increasing and whose temperatures are
monotonically non-decreasing (hence non-decreasing from the first sample
up to the profile's maximum temperature). -/
theorem profile_shape_invariant (bean : BeanType) (lvl : RoastLevel)
    {charge pct : ℚ} (h1 : 150 ≤ charge) (h2 : charge ≤ 250)
    (h3 : 0 < pct) (h4 : pct < 100) :
    ∃ p, generate_roast_profile bean lvl charge pct = Except.ok p ∧
      p.samples ≠ [] ∧
      p.samples.Pairwise (fun a b => a.1 < b.1) ∧
      p.samples.Pairwise (fun a b => a.2 ≤ b.2) := by
  refine ⟨_, generate_ok bean lvl h1 h2 h3 h4, ?_, ?_, ?_⟩
  · exact mkSamples_ne_nil lvl charge pct
  · unfold mkSamples
    refine List.Pairwise.map _ ?_ (List.pairwise_lt_range _)
    intro i j hij
    show (i : ℚ) / 2 < (j : ℚ) / 2
    have h : (i : ℚ) < (j : ℚ) := by exact_mod_cast hij
    linarith
  · unfold mkSamples
    refine List.Pairwise.map _ ?_ (List.pairwise_lt_range _)
    intro i j hij
    show tempAt charge (roastDelta lvl) (rampTime lvl pct) i ≤
      tempAt charge (roastDelta lvl) (rampTime lvl pct) j
    exact tempAt_mono _ _ _ (roastDelta_nonneg lvl) (rampTime_pos lvl h4)
      (le_of_lt hij)

theorem profile_shape_invariant_witness :
    ∃ p, generate_roast_profile BeanType.Arabica RoastLevel.Light 190 20 =
        Except.ok p ∧
      p.samples ≠ [] ∧
      p.samples.Pairwise (fun a b => a.1 < b.1) ∧
      p.samples.Pairwise (fun a b => a.2 ≤ b.2) :=
  profile_shape_invariant BeanType.Arabica RoastLevel.Light
    (by norm_num) (by norm_num) (by norm_num) (by norm_num)

/-! Claim C6: ordering of end temperatures and durations across levels. -/

theorem getD_last_mkSamples (lvl : RoastLevel) (charge pct : ℚ) :
    (mkSamples lvl charge pct).getD ((mkSamples lvl charge pct).length - 1)
        (0, 0) =
      (((2 * roastDurationMin lvl : ℕ) : ℚ) / 2,
        tempAt charge (roastDelta lvl) (rampTime lvl pct)
          (2 * roastDurationMin lvl)) := by
  rw [length_mkSamples, Nat.add_sub_cancel]
  exact getD_mkSamples lvl charge pct (by omega)

theorem metadata_generate (bean : BeanType) (lvl : RoastLevel)
    {charge pct : ℚ} (h1 : 150 ≤ charge) (h2 : charge ≤ 250)
    (h3 : 0 < pct) (h4 : pct < 100) :
    ∀ p, generate_roast_profile bean lvl charge pct = Except.ok p →
      p.endTemperature = charge + roastDelta lvl ∧
      p.totalDuration = (roastDurationMin lvl : ℚ) := by
  intro p hp
  rw [generate_ok bean lvl h1 h2 h3 h4] at hp
  cases hp
  constructor
  · unfold RoastProfile.endTemperature
    rw [getD_last_mkSamples]
    exact tempAt_last lvl charge h3 h4
  · unfold RoastProfile.totalDuration
    rw [getD_last_mkSamples]
    push_cast
    ring

/-- Claim C6: for a fixed bean type, charge temperature and
development-time percentage, the end temperatures of the generated
profiles satisfy Light < Medium < Dark ≤ French ≤ Italian and the total
durations are monotonically increasing for darker levels. -/
theorem roast_level_ordering (bean : BeanType) {charge pct : ℚ}
    (h1 : 150 ≤ charge) (h2 : charge ≤ 250) (h3 : 0 < pct) (h4 : pct < 100) :
    ∃ pL pM pD pF pI,
      generate_roast_profile bean RoastLevel.Light charge pct =
        Except.ok pL ∧
      generate_roast_profile bean RoastLevel.Medium charge pct =
        Except.ok pM ∧
      generate_roast_profile bean RoastLevel.Dark charge pct =
        Except.ok pD ∧
      generate_roast_profile bean RoastLevel.French charge pct =
        Except.ok pF ∧
      generate_roast_profile bean RoastLevel.Italian charge pct =
        Except.ok pI ∧
      pL.endTemperature < pM.endTemperature ∧
      pM.endTemperature < pD.endTemperature ∧
      pD.endTemperature ≤ pF.endTemperature ∧
      pF.endTemperature ≤ pI.endTemperature ∧
      pL.totalDuration < pM.totalDuration ∧
      pM.totalDuration < pD.totalDuration ∧
      pD.totalDuration < pF.totalDuration ∧
      pF.totalDuration < pI.totalDuration := by
  have hL := metadata_generate bean RoastLevel.Light h1 h2 h3 h4 _
    (generate_ok bean RoastLevel.Light h1 h2 h3 h4)
  have hM := metadata_generate bean RoastLevel.Medium h1 h2 h3 h4 _
    (generate_ok bean RoastLevel.Medium h1 h2 h3 h4)
  have hD := metadata_generate bean RoastLevel.Dark h1 h2 h3 h4 _
    (generate_ok bean RoastLevel.Dark h1 h2 h3 h4)
  have hF := metadata_generate bean RoastLevel.French h1 h2 h3 h4 _
    (generate_ok bean RoastLevel.French h1 h2 h3 h4)
  have hI := metadata_generate bean RoastLevel.Italian h1 h2 h3 h4 _
    (generate_ok bean RoastLevel.Italian h1 h2 h3 h4)
  refine ⟨_, _, _, _, _,
    generate_ok bean RoastLevel.Light h1 h2 h3 h4,
    generate_ok bean RoastLevel.Medium h1 h2 h3 h4,
    generate_ok bean RoastLevel.Dark h1 h2 h3 h4,
    generate_ok bean RoastLevel.French h1 h2 h3 h4,
    generate_ok bean RoastLevel.Italian h1 h2 h3 h4,
    ?_, ?_, ?_, ?_, ?_, ?_, ?_, ?_⟩ <;>
    simp only [hL.1, hM.1, hD.1, hF.1, hI.1, hL.2, hM.2, hD.2, hF.2, hI.2] <;>
    norm_num [roastDelta, roastDurationMin]

theorem roast_level_ordering_witness :
    ∃ pL pM pD pF pI,
      generate_roast_profile BeanType.Arabica RoastLevel.Light 190 20 =
        Except.ok pL ∧
      generate_roast_profile BeanType.Arabica RoastLevel.Medium 190 20 =
        Except.ok pM ∧
      generate_roast_profile BeanType.Arabica RoastLevel.Dark 190 20 =
        Except.ok pD ∧
      generate_roast_profile BeanType.Arabica RoastLevel.French 190 20 =
        Except.ok pF ∧
      generate_roast_profile BeanType.Arabica RoastLevel.Italian 190 20 =
        Except.ok pI ∧
      pL.endTemperature < pM.endTemperature ∧
      pM.endTemperature < pD.endTemperature ∧
      pD.endTemperature ≤ pF.endTemperature ∧
      pF.endTemperature ≤ pI.endTemperature ∧
      pL.totalDuration < pM.totalDuration ∧
      pM.totalDuration < pD.totalDuration ∧
      pD.totalDuration < pF.totalDuration ∧
      pF.totalDuration < pI.totalDuration :=
  roast_level_ordering BeanType.Arabica
    (by norm_num) (by norm_num) (by norm_num) (by norm_num)

/-! Claim C1: the live-temperature lookup samples the profile at the
nearest stored sample at or before the requested elapsed time. -/

/-- Claim C1: for a generated (hence non-empty) profile and any
nonnegative requested elapsed time, the lookup returns the temperature of
the stored sample with the largest `elapsed_minutes ≤` the request, and
whenever the request exceeds the last sample's elapsed value it returns
the last sample's temperature (clamped) — it is total, never failing or
extrapolating. -/
theorem sample_lookup_spec (bean : BeanType) (lvl : RoastLevel)
    {charge pct : ℚ} (h1 : 150 ≤ charge) (h2 : charge ≤ 250)
    (h3 : 0 < pct) (h4 : pct < 100) (x : ℚ) (hx : 0 ≤ x) :
    ∃ p, generate_roast_profile bean lvl charge pct = Except.ok p ∧
      (∃ i, i < p.samples.length ∧ currentTemp p x = sampleTemp p i ∧
        sampleElapsed p i ≤ x ∧
        ∀ j, j < p.samples.length → sampleElapsed p j ≤ x → j ≤ i) ∧
      (sampleElapsed p (p.samples.length - 1) < x →
        currentTemp p x = sampleTemp p (p.samples.length - 1)) := by
  obtain ⟨p, hp⟩ : ∃ p, generate_roast_profile bean lvl charge pct =
      Except.ok p :=
    ⟨_, generate_ok bean lvl h1 h2 h3 h4⟩
  have hps : p.samples = mkSamples lvl charge pct := by
    rw [generate_ok bean lvl h1 h2 h3 h4] at hp
    cases hp
    rfl
  refine ⟨p, hp, ?_⟩
  set N := 2 * roastDurationMin lvl with hN
  have hlen : p.samples.length = N + 1 := by
    rw [hps, length_mkSamples]
  have hse : ∀ j, j < N + 1 → sampleElapsed p j = (j : ℚ) / 2 := by
    intro j hj
    unfold sampleElapsed
    rw [hps, getD_mkSamples lvl charge pct hj]
  have hidx : currentTempIdx p x = min (Int.toNat ⌊x * 2⌋) N := by
    unfold currentTempIdx
    rw [hlen, Nat.add_sub_cancel]
  have hm0 : (0 : ℤ) ≤ ⌊x * 2⌋ := Int.floor_nonneg.mpr (by linarith)
  have hA : ((min (Int.toNat ⌊x * 2⌋) N : ℕ) : ℚ) ≤ x * 2 := by
    have hfl : ((Int.toNat ⌊x * 2⌋ : ℕ) : ℚ) ≤ x * 2 := by
      have hfl' := Int.floor_le (x * 2)
      rw [← Int.toNat_of_nonneg hm0] at hfl'
      exact_mod_cast hfl'
    calc ((min (Int.toNat ⌊x * 2⌋) N : ℕ) : ℚ)
        ≤ ((Int.toNat ⌊x * 2⌋ : ℕ) : ℚ) := by exact_mod_cast min_le_left _ _
      _ ≤ x * 2 := hfl
  constructor
  · refine ⟨currentTempIdx p x, ?_, rfl, ?_, ?_⟩
    · rw [hidx, hlen]
      exact Nat.lt_succ_of_le (min_le_right _ _)
    · rw [hidx, hse _ (Nat.lt_succ_of_le (min_le_right _ _))]
      rw [div_le_iff₀ (by norm_num : (0 : ℚ) < 2)]
      linarith [hA]
    · intro j hj hjx
      rw [hlen] at hj
      rw [hse j hj] at hjx
      rw [hidx]
      refine Nat.le_min.mpr ⟨?_, by omega⟩
      rw [Int.le_toNat hm0, Int.le_floor]
      push_cast
      linarith [hjx, (div_le_iff₀ (by norm_num : (0 : ℚ) < 2)).mp hjx]
  · intro hlast
    rw [hlen, Nat.add_sub_cancel] at hlast
    rw [hse N (Nat.lt_succ_self N)] at hlast
    have hNle : N ≤ Int.toNat ⌊x * 2⌋ := by
      rw [Int.le_toNat hm0, Int.le_floor]
      push_cast
      nlinarith [hlast]
    unfold currentTemp sampleTemp
    rw [hidx, hlen, Nat.add_sub_cancel, min_eq_right hNle]

theorem sample_lookup_witness :
    (0 : ℚ) ≤ 8 ∧
    ∃ p, generate_roast_profile BeanType.Arabica RoastLevel.Medium 190 20 =
        Except.ok p ∧
      (∃ i, i < p.samples.length ∧ currentTemp p 8 = sampleTemp p i ∧
        sampleElapsed p i ≤ 8 ∧
        ∀ j, j < p.samples.length → sampleElapsed p j ≤ 8 → j ≤ i) ∧
      (sampleElapsed p (p.samples.length - 1) < 8 →
        currentTemp p 8 = sampleTemp p (p.samples.length - 1)) :=
  ⟨by norm_num,
    sample_lookup_spec BeanType.Arabica RoastLevel.Medium
      (by norm_num) (by norm_num) (by norm_num) (by norm_num) 8 (by norm_num)⟩

end Roasting
